import Mathlib

/-
Verification of the World-GDP-Dashboard core logic (src/app.py).

The script has two verifiable components:

* the Reshaper, `get_gdp_data` (src/app.py lines 18-61): `pd.read_csv`
  with `na_values=['..']`, selection of the `Country Name`, `Country Code`
  and year columns (a missing column raises, i.e. a schema error), and a
  `melt` of the year columns into a long `(name, code, year, value)` table;

* the Metrics loop (src/app.py lines 120-151): for each selected country,
  `first_year_df[first_year_df['Country Code'] == country]['GDP'].iat[0] / 1e9`
  guarded by `except IndexError: first_gdp = float('nan')` (same for the end
  year), then `growth = 'n/a'` if `math.isnan(first_gdp) or first_gdp == 0`
  else the formatted quotient `last_gdp / first_gdp`.

Numbers are modelled as exact rationals; a float NaN is modelled as
`Option.none`.  `nan / x = nan` and `nan` propagates through arithmetic,
which `Option.map` reproduces.
-/

namespace GDPDash

/-- A raw CSV cell as `pd.read_csv` receives it: the literal text, together
with the numeric value the loader's parser assigns to that text when it
parses as a number. -/
structure RawCell where
  text : String
  numVal : Option ℚ
deriving Repr, DecidableEq

/-- The missing-data sentinel tokens, `na_values=['..']` (src/app.py line 24). -/
def naValues : List String := [".."]

/-- A materialised cell after `read_csv` coercion: a sentinel token becomes
NaN (absent), numeric text becomes a number, any other text stays a string. -/
inductive CellValue where
  | absent
  | num (q : ℚ)
  | text (s : String)
deriving Repr, DecidableEq

/-- The `na_values` coercion of `pd.read_csv` (src/app.py line 24). -/
def coerceCell (c : RawCell) : CellValue :=
  if c.text ∈ naValues then .absent
  else
    match c.numVal with
    | some q => .num q
    | none => .text c.text

/-- One row of the wide table: `Country Name`, `Country Code`, and a cell
under each year column. -/
structure WideRow where
  name : String
  code : String
  cell : Nat → RawCell

/-- The raw wide table: which of the required columns are present, and the
data rows.  `yearCols` lists the year columns the CSV actually has. -/
structure WideTable where
  hasNameCol : Bool
  hasCodeCol : Bool
  yearCols : List Nat
  rows : List WideRow

/-- One row of the long (tidy) table produced by the `melt`
(src/app.py lines 51-56). -/
structure LongRecord where
  name : String
  code : String
  year : Nat
  value : CellValue
deriving Repr, DecidableEq

/-- Failure of the column selection `raw_gdp_df[['Country Name', 'Country
Code'] + year_cols]` (src/app.py line 31): pandas raises when any requested
column is absent. -/
inductive SchemaError where
  | missingColumn
deriving Repr, DecidableEq

/-- The inclusive year range, Python `range(min_year, max_year + 1)`
(src/app.py line 30). -/
def yearsIn (y0 y1 : Nat) : List Nat := List.range' y0 (y1 + 1 - y0)

/-- All columns demanded by the selection on src/app.py line 31 are present. -/
def requiredColsPresent (t : WideTable) (y0 y1 : Nat) : Bool :=
  t.hasNameCol && t.hasCodeCol &&
    (yearsIn y0 y1).all fun y => t.yearCols.contains y

/-- The Reshaper (src/app.py lines 24-61): select the name, code and year
columns (failing when one is absent), then `melt` the year columns into one
long record per (year, row) pair.  `melt` emits, for each year column in
order, one record per source row. -/
def reshape (t : WideTable) (y0 y1 : Nat) : Except SchemaError (List LongRecord) :=
  if requiredColsPresent t y0 y1 then
    .ok ((yearsIn y0 y1).flatMap fun y =>
      t.rows.map fun r => ⟨r.name, r.code, y, coerceCell (r.cell y)⟩)
  else
    .error .missingColumn

/-- `MIN_YEAR` (src/app.py line 26). -/
def MIN_YEAR : Nat := 1960

/-- `MAX_YEAR` (src/app.py line 27). -/
def MAX_YEAR : Nat := 2024

/-- `get_gdp_data` (src/app.py lines 18-61) is the Reshaper applied over the
fixed 1960-2024 year range. -/
def get_gdp_data (t : WideTable) : Except SchemaError (List LongRecord) :=
  reshape t MIN_YEAR MAX_YEAR

/-- The lookup of src/app.py lines 128-135 performed on the long table:
filter by `Year`, filter by `Country Code`, take row 0 (`.iat[0]`), yield its
cell.  An empty selection raises `IndexError` in the source; here that is the
`none` of the outer option. -/
def lookupCell (rows : List LongRecord) (y : Nat) (c : String) : Option CellValue :=
  (((rows.filter fun r => r.year == y).filter fun r => r.code == c).head?).map
    fun r => r.value

/-- A row of the long table as the metrics loop consumes it.  The `Country
Name` column is unused by src/app.py lines 120-151, and a NaN GDP cell is
`none`. -/
structure GRow where
  code : String
  year : Nat
  gdp : Option ℚ
deriving Repr, DecidableEq

/-- Row 0 of the year-and-code filtered frame (src/app.py lines 128-135),
before the division: `first_year_df[first_year_df['Country Code'] ==
country]['GDP'].iat[0]`, with `none` for the `IndexError` case. -/
def cellAt (rows : List GRow) (y : Nat) (c : String) : Option GRow :=
  ((rows.filter fun r => r.year == y).filter fun r => r.code == c).head?

/-- `first_gdp` / `last_gdp` (src/app.py lines 128-135): the looked-up GDP
divided by `1e9` (the numeral 1000000000), or NaN when the row is missing (`IndexError`) or the cell
itself is NaN (NaN / 1e9 = NaN). -/
def gdpAt (rows : List GRow) (y : Nat) (c : String) : Option ℚ :=
  match cellAt rows y c with
  | none => none
  | some r => r.gdp.map fun q => q / 1000000000

/-- The growth field of a metric tile.  `na` is the literal `'n/a'`;
`mult r` is the formatted quotient `f"{last_gdp / first_gdp:,.2f}x"`, where
`r = none` means the quotient was the float NaN (formatted as `"nanx"`). -/
inductive Growth where
  | na
  | mult (r : Option ℚ)
deriving Repr, DecidableEq

/-- The growth computation (src/app.py lines 138-143): `'n/a'` when
`math.isnan(first_gdp) or first_gdp == 0`, else `last_gdp / first_gdp`
(NaN when `last_gdp` is NaN). -/
def growthOf (first last : Option ℚ) : Growth :=
  match first with
  | none => .na
  | some f => if f = 0 then .na else .mult (last.map fun l => l / f)

/-- One metric tile (src/app.py lines 146-151). -/
structure MetricResult where
  code : String
  start_value : Option ℚ
  end_value : Option ℚ
  growth : Growth
deriving Repr, DecidableEq

/-- The metrics loop (src/app.py lines 124-151): one tile per element of
`selected_countries`, in that order. -/
def compute_metrics (rows : List GRow) (codes : List String) (y0 y1 : Nat) :
    List MetricResult :=
  codes.map fun c =>
    let f := gdpAt rows y0 c
    let l := gdpAt rows y1 c
    { code := c, start_value := f, end_value := l, growth := growthOf f l }

/-- A concrete two-year wide table with one entity, `DEU`, whose 2021 cell is
the missing-data sentinel. -/
def wTable : WideTable where
  hasNameCol := true
  hasCodeCol := true
  yearCols := [2020, 2021]
  rows := [⟨"Germany", "DEU",
    fun y => if y = 2020 then ⟨"3000", some 3000⟩ else ⟨"..", none⟩⟩]

/-- A concrete long table: `DEU` has GDP 10 in 2020 and 25 in 2021. -/
def gTable : List GRow := [⟨"DEU", 2020, some 10⟩, ⟨"DEU", 2021, some 25⟩]

/-- A concrete long table whose end-year value is NaN. -/
def nanEndTable : List GRow := [⟨"DEU", 2020, some 10⟩, ⟨"DEU", 2021, none⟩]

/-- A concrete long table with a duplicated `(DEU, 2020)` key. -/
def dupTable : List GRow := [⟨"DEU", 2020, some 10⟩, ⟨"DEU", 2020, some 20⟩]

/-- A concrete two-entity long table, and the same table stored in the
reverse order. -/
def twoTable : List GRow := [⟨"FRA", 2020, some 1⟩, ⟨"DEU", 2020, some 2⟩]

/-- `twoTable` with the rows stored in the opposite order. -/
def twoTableRev : List GRow := [⟨"DEU", 2020, some 2⟩, ⟨"FRA", 2020, some 1⟩]

/-- The long table the Reshaper produces from `wTable` on the range
`[2020, 2021]`. -/
def wOut : List LongRecord :=
  [⟨"Germany", "DEU", 2020, CellValue.num 3000⟩,
   ⟨"Germany", "DEU", 2021, CellValue.absent⟩]

theorem mem_yearsIn {y0 y1 y : Nat} : y ∈ yearsIn y0 y1 ↔ y0 ≤ y ∧ y ≤ y1 := by
  rw [yearsIn, List.mem_range'_1]
  omega

theorem nodup_yearsIn (y0 y1 : Nat) : (yearsIn y0 y1).Nodup := by
  rw [yearsIn]
  exact List.nodup_range' y0 (y1 + 1 - y0)

theorem length_yearsIn (y0 y1 : Nat) : (yearsIn y0 y1).length = y1 + 1 - y0 :=
  List.length_range' y0 1 (y1 + 1 - y0)

theorem reshape_ok_eq {t : WideTable} {y0 y1 : Nat} {out : List LongRecord}
    (h : reshape t y0 y1 = Except.ok out) :
    out = (yearsIn y0 y1).flatMap fun y =>
      t.rows.map fun r => ⟨r.name, r.code, y, coerceCell (r.cell y)⟩ := by
  by_cases hc : requiredColsPresent t y0 y1
  · rw [reshape, if_pos hc] at h
    exact (Except.ok.inj h).symm
  · rw [reshape, if_neg hc] at h
    cases h

/-- Claim C4: for every wide table and inclusive year range `[y0, y1]` on
which `reshape` succeeds, the long table has exactly `|wide| × (y1 - y0 + 1)`
records, one per (entity, year) combination. -/
theorem reshape_cardinality (t : WideTable) (y0 y1 : Nat) (out : List LongRecord)
    (hle : y0 ≤ y1) (h : reshape t y0 y1 = Except.ok out) :
    out.length = t.rows.length * (y1 - y0 + 1) := by
  rw [reshape_ok_eq h, List.length_flatMap]
  simp only [Function.comp_def, List.length_map]
  rw [List.map_const', List.sum_replicate, smul_eq_mul, length_yearsIn]
  have harith : y1 + 1 - y0 = y1 - y0 + 1 := by omega
  rw [harith, Nat.mul_comm]

theorem reshape_cardinality_spot :
    2020 ≤ 2021 ∧ reshape wTable 2020 2021 = Except.ok wOut ∧
      wOut.length = wTable.rows.length * (2021 - 2020 + 1) :=
  ⟨by decide, rfl, reshape_cardinality wTable 2020 2021 wOut (by decide) rfl⟩

theorem nodup_key_grid (rows : List WideRow) (ys : List Nat)
    (hc : (rows.map WideRow.code).Nodup) (hy : ys.Nodup) :
    (ys.flatMap fun y => rows.map fun r => (r.code, y)).Nodup := by
  induction ys with
  | nil => simp
  | cons y ys ih =>
    rw [List.flatMap_cons]
    rcases List.nodup_cons.mp hy with ⟨hy1, hy2⟩
    refine List.Nodup.append ?_ (ih hy2) ?_
    · have heq : (rows.map fun r => (r.code, y)) =
          (rows.map WideRow.code).map fun c => (c, y) := by
        rw [List.map_map]
        rfl
      rw [heq]
      refine hc.map ?_
      intro a b hab
      simpa using congrArg Prod.fst hab
    · intro p hp1 hp2
      rcases List.mem_map.mp hp1 with ⟨r, _, rfl⟩
      rcases List.mem_flatMap.mp hp2 with ⟨y', hy', hp'⟩
      rcases List.mem_map.mp hp' with ⟨r', _, heq'⟩
      have : y' = y := congrArg Prod.snd heq'
      exact hy1 (this ▸ hy')

/-- Claim C5: in every output of `reshape` from a wide table with distinct
entity codes, no two long records share the same `(entity_code, year)` pair,
and each record's name and code come from a source row. -/
theorem reshape_unique_keys (t : WideTable) (y0 y1 : Nat) (out : List LongRecord)
    (hcodes : (t.rows.map WideRow.code).Nodup)
    (h : reshape t y0 y1 = Except.ok out) :
    (out.map fun lr => (lr.code, lr.year)).Nodup ∧
      ∀ lr ∈ out, ∃ r ∈ t.rows, lr.code = r.code ∧ lr.name = r.name := by
  rw [reshape_ok_eq h]
  constructor
  · simp only [List.map_flatMap, List.map_map]
    exact nodup_key_grid t.rows (yearsIn y0 y1) hcodes (nodup_yearsIn y0 y1)
  · intro lr hlr
    rcases List.mem_flatMap.mp hlr with ⟨y, _, hmem⟩
    rcases List.mem_map.mp hmem with ⟨r, hr, rfl⟩
    exact ⟨r, hr, rfl, rfl⟩

theorem reshape_unique_keys_spot :
    (wOut.map fun lr => (lr.code, lr.year)).Nodup ∧
      ∀ lr ∈ wOut, ∃ r ∈ wTable.rows, lr.code = r.code ∧ lr.name = r.name :=
  reshape_unique_keys wTable 2020 2021 wOut (by decide) rfl

/-- Claim C6: a wide cell holding the missing-data sentinel `'..'` for a year
in range reshapes to a long record whose value is `absent` — never zero
(`num 0`) and never a string (`text s`). -/
theorem reshape_null_preservation (t : WideTable) (y0 y1 : Nat)
    (out : List LongRecord) (r : WideRow) (y : Nat)
    (h : reshape t y0 y1 = Except.ok out) (hr : r ∈ t.rows) (hy0 : y0 ≤ y)
    (hy1 : y ≤ y1) (hcell : (r.cell y).text = "..") :
    (⟨r.name, r.code, y, CellValue.absent⟩ : LongRecord) ∈ out ∧
      (∀ q : ℚ, CellValue.absent ≠ CellValue.num q) ∧
      ∀ s : String, CellValue.absent ≠ CellValue.text s := by
  refine ⟨?_, fun q => by simp, fun s => by simp⟩
  rw [reshape_ok_eq h]
  refine List.mem_flatMap.mpr ⟨y, mem_yearsIn.mpr ⟨hy0, hy1⟩, ?_⟩
  refine List.mem_map.mpr ⟨r, hr, ?_⟩
  have habs : coerceCell (r.cell y) = CellValue.absent := by
    simp [coerceCell, naValues, hcell]
  rw [habs]

theorem reshape_null_preservation_spot :
    (⟨"Germany", "DEU", 2021, CellValue.absent⟩ : LongRecord) ∈ wOut ∧
      (∀ q : ℚ, CellValue.absent ≠ CellValue.num q) ∧
      ∀ s : String, CellValue.absent ≠ CellValue.text s :=
  reshape_null_preservation wTable 2020 2021 wOut
    ⟨"Germany", "DEU", fun y => if y = 2020 then ⟨"3000", some 3000⟩ else ⟨"..", none⟩⟩
    2021 rfl (by simp [wTable]) (by decide) (by decide) (by decide)

theorem requiredColsPresent_iff (t : WideTable) (y0 y1 : Nat) :
    requiredColsPresent t y0 y1 = true ↔
      t.hasNameCol = true ∧ t.hasCodeCol = true ∧
        ∀ y, y0 ≤ y → y ≤ y1 → y ∈ t.yearCols := by
  constructor
  · intro hc
    simp only [requiredColsPresent, Bool.and_eq_true, List.all_eq_true] at hc
    obtain ⟨⟨h1, h2⟩, h3⟩ := hc
    refine ⟨h1, h2, fun y hy0 hy1 => ?_⟩
    simpa using h3 y (mem_yearsIn.mpr ⟨hy0, hy1⟩)
  · rintro ⟨h1, h2, h3⟩
    simp only [requiredColsPresent, Bool.and_eq_true, List.all_eq_true]
    refine ⟨⟨h1, h2⟩, fun y hy => ?_⟩
    have hm := mem_yearsIn.mp hy
    simpa using h3 y hm.1 hm.2

/-- Claim C8: `reshape` fails with a schema error exactly when a required
column (`entity_name`, `entity_code`, or any year in the range) is absent,
and succeeds — no matter which values are missing — exactly when every
required column is present; no partial result exists. -/
theorem reshape_schema_error (t : WideTable) (y0 y1 : Nat) :
    (reshape t y0 y1 = Except.error SchemaError.missingColumn ↔
      ¬(t.hasNameCol = true ∧ t.hasCodeCol = true ∧
        ∀ y, y0 ≤ y → y ≤ y1 → y ∈ t.yearCols)) ∧
    ((∃ out, reshape t y0 y1 = Except.ok out) ↔
      t.hasNameCol = true ∧ t.hasCodeCol = true ∧
        ∀ y, y0 ≤ y → y ≤ y1 → y ∈ t.yearCols) := by
  by_cases hc : requiredColsPresent t y0 y1 = true
  · have hp := (requiredColsPresent_iff t y0 y1).mp hc
    rw [reshape, if_pos hc]
    exact ⟨iff_of_false (by simp) (not_not_intro hp), iff_of_true ⟨_, rfl⟩ hp⟩
  · have hnp : ¬(t.hasNameCol = true ∧ t.hasCodeCol = true ∧
        ∀ y, y0 ≤ y → y ≤ y1 → y ∈ t.yearCols) :=
      fun hp => hc ((requiredColsPresent_iff t y0 y1).mpr hp)
    rw [reshape, if_neg hc]
    refine ⟨iff_of_true rfl hnp, iff_of_false ?_ hnp⟩
    rintro ⟨out, hout⟩
    cases hout

/-- Claim C9: both embedded functions are deterministic — two runs on
identical inputs produce identical outputs. -/
theorem pipeline_deterministic (t : WideTable) (y0 y1 : Nat) (rows : List GRow)
    (codes : List String) (a b : Nat) :
    reshape t y0 y1 = reshape t y0 y1 ∧
      compute_metrics rows codes a b = compute_metrics rows codes a b :=
  ⟨rfl, rfl⟩

/-- Claim C3: when the start and end rows exist and hold present values `f`
and `l` with `f ≠ 0`, the metric tile carries `f / 1e9` and `l / 1e9` and its
growth is exactly `l / f` — the uniform division by `1e9` cancels out of the
ratio. -/
theorem growth_correctness (rows : List GRow) (c : String) (y0 y1 : Nat)
    (rs re : GRow) (f l : ℚ) (h0 : cellAt rows y0 c = some rs)
    (h1 : cellAt rows y1 c = some re) (hf : rs.gdp = some f)
    (hl : re.gdp = some l) (hne : f ≠ 0) :
    compute_metrics rows [c] y0 y1 =
      [{ code := c, start_value := some (f / 1000000000),
         end_value := some (l / 1000000000), growth := Growth.mult (some (l / f)) }] := by
  have hb : (1000000000 : ℚ) ≠ 0 := by norm_num
  have hhf : gdpAt rows y0 c = some (f / 1000000000) := by
    simp only [gdpAt, h0, hf, Option.map_some']
  have hhl : gdpAt rows y1 c = some (l / 1000000000) := by
    simp only [gdpAt, h1, hl, Option.map_some']
  have hfd : f / 1000000000 ≠ 0 := div_ne_zero hne hb
  have hg : growthOf (some (f / 1000000000)) (some (l / 1000000000)) =
      Growth.mult (some (l / f)) := by
    simp only [growthOf, if_neg hfd, Option.map_some']
    rw [div_div_div_comm, div_self hb, div_one]
  simp only [compute_metrics, List.map_cons, List.map_nil, hhf, hhl, hg]

theorem growth_correctness_spot :
    compute_metrics gTable ["DEU"] 2020 2021 =
      [{ code := "DEU", start_value := some (10 / 1000000000),
         end_value := some (25 / 1000000000),
         growth := Growth.mult (some (25 / 10)) }] :=
  growth_correctness gTable "DEU" 2020 2021 ⟨"DEU", 2020, some 10⟩
    ⟨"DEU", 2021, some 25⟩ 10 25 (by decide) (by decide) rfl rfl (by norm_num)

/-- Claim C1 (code bug): with start value 10 present and nonzero and the end
value absent (NaN), the growth branch — which only tests
`math.isnan(first_gdp) or first_gdp == 0` — produces the NaN quotient
`Growth.mult none` (rendered `"nanx"`), not the absent marker `'n/a'`. -/
theorem growth_nanx_on_absent_end :
    compute_metrics nanEndTable ["DEU"] 2020 2021 =
      [{ code := "DEU", start_value := some (10 / 1000000000), end_value := none,
         growth := Growth.mult none }] ∧ Growth.mult none ≠ Growth.na := by
  refine ⟨?_, by simp⟩
  have h0 : cellAt nanEndTable 2020 "DEU" = some ⟨"DEU", 2020, some 10⟩ := by
    simp [cellAt, nanEndTable]
  have h1 : cellAt nanEndTable 2021 "DEU" = some ⟨"DEU", 2021, none⟩ := by
    simp [cellAt, nanEndTable]
  have hne : (10 : ℚ) / 1000000000 ≠ 0 := by norm_num
  simp [compute_metrics, gdpAt, h0, h1, growthOf, hne]

/-- Claim C2 counterexample: on a long table with a duplicated `(DEU, 2020)`
key the metrics lookup does not fail — it returns a normal per-entity result
built from the first matching row. -/
theorem dup_key_silent_first :
    compute_metrics dupTable ["DEU"] 2020 2020 =
      [{ code := "DEU", start_value := some (10 / 1000000000),
         end_value := some (10 / 1000000000), growth := Growth.mult (some 1) }] := by
  have h0 : cellAt dupTable 2020 "DEU" = some ⟨"DEU", 2020, some 10⟩ := by
    simp [cellAt, dupTable]
  have hne : (10 : ℚ) / 1000000000 ≠ 0 := by norm_num
  simp [compute_metrics, gdpAt, h0, growthOf, hne, div_self hne]

theorem cellAt_append_dup (rows extra : List GRow) (y : Nat) (c : String)
    (hdup : ∀ e ∈ extra, ∃ r ∈ rows, r.code = e.code ∧ r.year = e.year) :
    cellAt (rows ++ extra) y c = cellAt rows y c := by
  rw [cellAt, cellAt, List.filter_append, List.filter_append, List.head?_append]
  rcases hA : ((rows.filter fun r => r.year == y).filter
      fun r => r.code == c).head? with _ | a
  · have hnil : (rows.filter fun r => r.year == y).filter
        (fun r => r.code == c) = [] := List.head?_eq_none_iff.mp hA
    have hnil2 : (extra.filter fun r => r.year == y).filter
        (fun r => r.code == c) = [] := by
      rw [List.filter_filter] at hnil ⊢
      rw [List.filter_eq_nil_iff] at hnil ⊢
      intro e he hp
      rcases hdup e he with ⟨r, hr, hc1, hy1⟩
      refine hnil r hr ?_
      simpa [hc1, hy1] using hp
    rw [hnil2, hA, Option.none_or]
    rfl
  · rw [hA]
    rfl

/-- Claim C2 (amended): appending rows whose `(entity_code, year)` key
duplicates a key already in the table never changes any metric — the lookup
silently uses the first matching row; no fatal error exists. -/
theorem dup_key_first_wins (rows extra : List GRow) (codes : List String)
    (y0 y1 : Nat)
    (hdup : ∀ e ∈ extra, ∃ r ∈ rows, r.code = e.code ∧ r.year = e.year) :
    compute_metrics (rows ++ extra) codes y0 y1 =
      compute_metrics rows codes y0 y1 := by
  refine List.map_congr_left fun c hc => ?_
  have h0 := cellAt_append_dup rows extra y0 c hdup
  have h1 := cellAt_append_dup rows extra y1 c hdup
  simp only [gdpAt, h0, h1]

theorem dup_key_first_wins_spot :
    compute_metrics ([⟨"DEU", 2020, some 10⟩] ++ [⟨"DEU", 2020, some 20⟩])
        ["DEU"] 2020 2020 =
      compute_metrics [⟨"DEU", 2020, some 10⟩] ["DEU"] 2020 2020 :=
  dup_key_first_wins [⟨"DEU", 2020, some 10⟩] [⟨"DEU", 2020, some 20⟩]
    ["DEU"] 2020 2020 (by decide)

/-- Claim C7 counterexample: a duplicated entity code in the selection yields
one tile per occurrence — two results, not a single collapsed one. -/
theorem dup_codes_not_collapsed :
    (compute_metrics twoTable ["DEU", "DEU"] 2020 2020).map MetricResult.code =
        ["DEU", "DEU"] ∧
      (compute_metrics twoTable ["DEU", "DEU"] 2020 2020).length ≠ 1 := by
  constructor
  · decide
  · decide

theorem eq_of_perm_length_le_one {α : Type _} {l l2 : List α} (h : l.Perm l2)
    (hl : l.length ≤ 1) : l = l2 := by
  match l, h, hl with
  | [], h, _ => exact h.nil_eq
  | [a], h, _ => exact ((List.perm_singleton).mp h.symm).symm
  | a :: b :: t, h, hl =>
    simp only [List.length_cons] at hl
    omega

theorem length_le_one_of_nodup_const {α β : Type _} (l : List α) (f : α → β)
    (k : β) (hn : (l.map f).Nodup) (hk : ∀ a ∈ l, f a = k) : l.length ≤ 1 := by
  match l with
  | [] => simp
  | [a] => simp
  | a :: b :: t =>
    exfalso
    have h1 : f a = k := hk a (List.mem_cons_self ..)
    have h2 : f b = k := hk b (List.mem_cons_of_mem _ (List.mem_cons_self ..))
    rw [List.map_cons, List.map_cons, List.nodup_cons] at hn
    refine hn.1 ?_
    rw [h1, ← h2]
    exact List.mem_cons_self ..

theorem cellAt_perm (rows rows2 : List GRow) (y : Nat) (c : String)
    (hperm : rows.Perm rows2)
    (hkeys : (rows.map fun r => (r.code, r.year)).Nodup) :
    cellAt rows y c = cellAt rows2 y c := by
  rw [cellAt, cellAt, List.filter_filter, List.filter_filter]
  have hp := hperm.filter fun r => r.code == c && r.year == y
  have hsub : ((rows.filter fun r => r.code == c && r.year == y).map
      fun r => (r.code, r.year)).Nodup :=
    ((List.filter_sublist rows).map _).nodup hkeys
  have hkey : ∀ r ∈ rows.filter fun r => r.code == c && r.year == y,
      (fun r : GRow => (r.code, r.year)) r = (c, y) := by
    intro r hr
    have hpr := (List.mem_filter.mp hr).2
    simp only [Bool.and_eq_true, beq_iff_eq] at hpr
    simp [hpr.1, hpr.2]
  rw [eq_of_perm_length_le_one hp
    (length_le_one_of_nodup_const _ _ (c, y) hsub hkey)]

/-- Claim C7 (amended): the metric tiles follow the caller-supplied code
order — one tile per element, duplicates included — and, when the table's
`(entity_code, year)` keys are unique, the result is independent of the
table's storage order. -/
theorem order_preserved_storage_independent (rows rows2 : List GRow)
    (codes : List String) (y0 y1 : Nat) (hperm : rows.Perm rows2)
    (hkeys : (rows.map fun r => (r.code, r.year)).Nodup) :
    (compute_metrics rows codes y0 y1).map MetricResult.code = codes ∧
      compute_metrics rows codes y0 y1 = compute_metrics rows2 codes y0 y1 := by
  constructor
  · simp [compute_metrics, List.map_map, Function.comp_def]
  · refine List.map_congr_left fun c hc => ?_
    have h0 := cellAt_perm rows rows2 y0 c hperm hkeys
    have h1 := cellAt_perm rows rows2 y1 c hperm hkeys
    simp only [gdpAt, h0, h1]

theorem order_preserved_spot :
    (compute_metrics twoTable ["DEU", "FRA"] 2020 2020).map MetricResult.code =
        ["DEU", "FRA"] ∧
      compute_metrics twoTable ["DEU", "FRA"] 2020 2020 =
        compute_metrics twoTableRev ["DEU", "FRA"] 2020 2020 :=
  order_preserved_storage_independent twoTable twoTableRev ["DEU", "FRA"]
    2020 2020 (by decide) (by decide)

theorem flatMap_eq_of_single {β : Type _} (ys : List Nat) (f : Nat → List β)
    (y : Nat) (hy : y ∈ ys) (hnd : ys.Nodup)
    (hz : ∀ y' ∈ ys, y' ≠ y → f y' = []) : ys.flatMap f = f y := by
  induction ys with
  | nil => cases hy
  | cons a ys ih =>
    rw [List.flatMap_cons]
    rcases List.nodup_cons.mp hnd with ⟨ha, hnd2⟩
    rcases List.mem_cons.mp hy with rfl | hy2
    · have hrest : ys.flatMap f = [] := List.flatMap_eq_nil_iff.mpr fun y' hy' =>
        hz y' (List.mem_cons_of_mem _ hy') fun hEq => ha (hEq ▸ hy')
      rw [hrest, List.append_nil]
    · have ha2 : f a = [] :=
        hz a (List.mem_cons_self ..) fun hEq => ha (by rw [hEq]; exact hy2)
      rw [ha2, List.nil_append]
      exact ih hy2 hnd2 fun y' h1 h2 => hz y' (List.mem_cons_of_mem _ h1) h2

theorem lookupCell_reshape_ok (t : WideTable) (y0 y1 : Nat)
    (out : List LongRecord) (y : Nat) (c : String)
    (h : reshape t y0 y1 = Except.ok out) (hy0 : y0 ≤ y) (hy1 : y ≤ y1) :
    lookupCell out y c =
      ((t.rows.filter fun r => r.code == c).head?).map
        fun r => coerceCell (r.cell y) := by
  rw [lookupCell, reshape_ok_eq h, List.filter_flatMap]
  have hstep : ((yearsIn y0 y1).flatMap fun y' =>
      (t.rows.map fun r =>
        (⟨r.name, r.code, y', coerceCell (r.cell y')⟩ : LongRecord)).filter
          fun lr => lr.year == y) =
      t.rows.map fun r => (⟨r.name, r.code, y, coerceCell (r.cell y)⟩ : LongRecord) := by
    rw [flatMap_eq_of_single _ _ y (mem_yearsIn.mpr ⟨hy0, hy1⟩)
      (nodup_yearsIn y0 y1) ?_]
    · rw [List.filter_map]
      have hcomp : ((fun lr : LongRecord => lr.year == y) ∘ fun r : WideRow =>
          (⟨r.name, r.code, y, coerceCell (r.cell y)⟩ : LongRecord)) =
            fun _ => true := by
        funext r
        simp
      rw [hcomp, List.filter_true]
    · intro y' hy' hne
      rw [List.filter_map]
      have hcomp : ((fun lr : LongRecord => lr.year == y) ∘ fun r : WideRow =>
          (⟨r.name, r.code, y', coerceCell (r.cell y')⟩ : LongRecord)) =
            fun _ => false := by
        funext r
        simpa using hne
      rw [hcomp, List.filter_false, List.map_nil]
  rw [hstep, List.filter_map, List.head?_map, Option.map_map]
  rfl

/-- Claim C10: on a reshaped table the metrics lookup for a year inside the
range finds a row for every entity code present in the wide table — the
looked-up value is that row's (possibly absent) cell — and the out-of-range
(`IndexError`) fallback fires only for codes absent from the table. -/
theorem lookup_grid_total (t : WideTable) (y0 y1 : Nat) (out : List LongRecord)
    (y : Nat) (c : String) (h : reshape t y0 y1 = Except.ok out) (hy0 : y0 ≤ y)
    (hy1 : y ≤ y1) :
    ((∃ r ∈ t.rows, r.code = c) →
        ∃ r ∈ t.rows, r.code = c ∧ lookupCell out y c = some (coerceCell (r.cell y))) ∧
      ((∀ r ∈ t.rows, r.code ≠ c) → lookupCell out y c = none) := by
  have hb := lookupCell_reshape_ok t y0 y1 out y c h hy0 hy1
  constructor
  · rintro ⟨r0, hr0, hc0⟩
    rcases hhead : (t.rows.filter fun r => r.code == c).head? with _ | r1
    · exfalso
      have hnil := List.head?_eq_none_iff.mp hhead
      rw [List.filter_eq_nil_iff] at hnil
      exact hnil r0 hr0 (by simp [hc0])
    · have hm : r1 ∈ t.rows.filter fun r => r.code == c :=
        List.mem_of_mem_head? (by rw [hhead]; rfl)
      rcases List.mem_filter.mp hm with ⟨hr1, hcode⟩
      refine ⟨r1, hr1, by simpa using hcode, ?_⟩
      rw [hb, hhead]
      rfl
  · intro hall
    rw [hb]
    have hnil : (t.rows.filter fun r => r.code == c) = [] :=
      List.filter_eq_nil_iff.mpr fun r hr => by simpa using hall r hr
    rw [hnil]
    rfl

theorem lookup_grid_total_spot :
    reshape wTable 2020 2021 = Except.ok wOut ∧
      ∃ r ∈ wTable.rows, r.code = "DEU" ∧
        lookupCell wOut 2021 "DEU" = some (coerceCell (r.cell 2021)) := by
  have h : reshape wTable 2020 2021 = Except.ok wOut := rfl
  refine ⟨h, (lookup_grid_total wTable 2020 2021 wOut 2021 "DEU" h (by decide)
    (by decide)).1 ?_⟩
  exact ⟨⟨"Germany", "DEU",
    fun y => if y = 2020 then ⟨"3000", some 3000⟩ else ⟨"..", none⟩⟩,
    by simp [wTable], rfl⟩

end GDPDash
